import Mathlib

/-!
Verification development for the SEBS build-system core
(`builder.py`, `runner.py`, `command.py`, `main.py`).

Shallow embedding conventions:

* File timestamps are rationals (Python mtimes are fractional seconds).
* Python `md5` hashers are modelled by the byte sequence fed to them:
  a hasher is a `String`, `hasher.update(s)` is concatenation, and two
  digests are equal exactly when the fed byte sequences are equal
  (collisions are out of scope, as the spec states).
* Exceptions (`DefinitionError`) become `Except String`; fallible
  filesystem reads that the scheduler guarantees to succeed are total.
* Python object identity on `Action` values is modelled by identifying
  an action with a numeric id (`Option Nat`: `none` is Python `None`).
-/

/-- An artifact of the build graph: `core.Artifact` carries a filename and
the producing action (`none` for source files). -/
structure Artifact where
  filename : String
  action : Option Nat
deriving DecidableEq, Repr

/-- Argument-list element of a `SubprocessCommand`: a literal string, an
artifact (replaced by its disk path), a `ContentToken` (contents of an
artifact), or a nested list that concatenates to a single argument. -/
inductive Arg where
  | str (s : String)
  | file (a : Artifact)
  | content (a : Artifact)
  | list (args : List Arg)

/-- Default value of an `EnvironmentCommand`: a plain string or an artifact
whose contents are used. -/
inductive EnvDefault where
  | str (s : String)
  | art (a : Artifact)

/-- The closed set of command variants from `command.py`. -/
inductive Cmd where
  | echo (content : String) (output : Artifact)
  | envCmd (envName : String) (output : Artifact)
      (default : Option EnvDefault) (setStatus : Bool)
  | doAll (subs : List Cmd)
  | cond (condition : Artifact) (trueCmd : Cmd) (falseCmd : Option Cmd)
  | subprocess (action : Option Nat) (args : List Arg)
      (implicit : List Artifact)
      (captureStdout captureStderr captureExitStatus : Option Artifact)

/-! ## Command hashing (`command.py`) -/

/-- `command._hash_string_and_length`: feed `str(len(s))`, a space, then
`s` itself. -/
def hashStringAndLength (s : String) : String :=
  toString s.length ++ " " ++ s

mutual

/-- One element of `SubprocessCommand.__hash_args`: tag the variant
(`s` literal, `o`/`i` artifact produced by this action or not, `c` content
token, `l` nested list) and feed the length-prefixed payload. -/
def hashArgOne (act : Option Nat) : Arg → String
  | .str s => "s" ++ hashStringAndLength s
  | .file a =>
      (if a.action = act then "o" else "i") ++ hashStringAndLength a.filename
  | .content a => "c" ++ hashStringAndLength a.filename
  | .list l => "l" ++ toString l.length ++ " " ++ hashArgList act l

/-- Concatenation of `hashArgOne` over a list. -/
def hashArgList (act : Option Nat) : List Arg → String
  | [] => ""
  | a :: rest => hashArgOne act a ++ hashArgList act rest

end

/-- `SubprocessCommand.__hash_args`: the list length, a space, then each
argument in order. -/
def hashArgs (act : Option Nat) (args : List Arg) : String :=
  toString args.length ++ " " ++ hashArgList act args

/-- The `+`/`-`-prefixed names of the implicit artifacts: `+` when the
artifact is produced by this command's action, `-` otherwise. -/
def implicitNames (act : Option Nat) (implicit : List Artifact) : List String :=
  implicit.map fun a =>
    (if a.action = act then "+" else "-") ++ a.filename

/-- The byte sequence `SubprocessCommand.hash` feeds for the implicit
artifacts: the prefixed names in sorted order, each length-prefixed. -/
def implicitHash (act : Option Nat) (implicit : List Artifact) : String :=
  String.join
    ((List.insertionSort (fun x y : String => x ≤ y)
        (implicitNames act implicit)).map hashStringAndLength)

/-- The byte sequence fed for one optional capture artifact, with its tag
character (`>` stdout, `&` stderr, `?` exit status). -/
def captureHash (tag : String) : Option Artifact → String
  | none => ""
  | some a => tag ++ hashStringAndLength a.filename

mutual

/-- `Command.hash` for each variant, as the byte sequence fed to the
hasher. -/
def cmdHash : Cmd → String
  | .echo content out =>
      "EchoCommand:" ++ hashStringAndLength content ++
        hashStringAndLength out.filename
  | .envCmd n out dflt _ =>
      "EnvironmentCommand:" ++ hashStringAndLength n ++
        hashStringAndLength out.filename ++
        (match dflt with
         | none => "x"
         | some (.art a) => "f" ++ hashStringAndLength a.filename
         | some (.str s) => "s" ++ hashStringAndLength s)
  | .doAll subs =>
      "DoAllCommand:" ++ toString subs.length ++ " " ++ cmdHashList subs
  | .cond c t none =>
      "ConditionalCommand:" ++ hashStringAndLength c.filename ++
        cmdHash t ++ "-"
  | .cond c t (some f) =>
      "ConditionalCommand:" ++ hashStringAndLength c.filename ++
        cmdHash t ++ "+" ++ cmdHash f
  | .subprocess act args implicit cso cse ces =>
      "SubprocessCommand:" ++ hashArgs act args ++
        captureHash ">" cso ++ captureHash "&" cse ++ captureHash "?" ces ++
        implicitHash act implicit ++ "."

/-- Concatenation of `cmdHash` over a list (`DoAllCommand.hash` body). -/
def cmdHashList : List Cmd → String
  | [] => ""
  | c :: rest => cmdHash c ++ cmdHashList rest

end

/-! ## Argument formatting (`SubprocessCommand.__format_args`) -/

/-- Python `str.split()` whitespace characters. -/
def pyIsSpace (c : Char) : Bool :=
  c = ' ' || c = '\t' || c = '\n' || c = '\r' ||
    c = Char.ofNat 11 || c = Char.ofNat 12

/-- Python `str.split()` with no separator: maximal runs of
non-whitespace. -/
def pySplit (s : String) : List String :=
  (s.split fun c => pyIsSpace c).filter fun t => t ≠ ""

mutual

/-- One argument of `__format_args`: a literal passes through, an artifact
becomes its disk path, a content token becomes the artifact's contents
(whitespace-split when `split` is true), a nested list concatenates its
elements formatted with `split_content = False`. -/
def formatArgOne (read diskPath : String → String) (split : Bool) :
    Arg → List String
  | .str s => [s]
  | .file a => [diskPath a.filename]
  | .content a =>
      if split then pySplit (read a.filename) else [read a.filename]
  | .list l => [String.join (formatArgList read diskPath false l)]

/-- `__format_args` over a list of arguments. -/
def formatArgList (read diskPath : String → String) (split : Bool) :
    List Arg → List String
  | [] => []
  | a :: rest =>
      formatArgOne read diskPath split a ++
        formatArgList read diskPath split rest

end

/-- Top-level formatting as used by `SubprocessCommand.run`
(`split_content` defaults to true). -/
def formatArgs (read diskPath : String → String) (args : List Arg) :
    List String :=
  formatArgList read diskPath true args

/-! ## Command execution (`command.py` `run` methods) -/

/-- The mutable state a running command sees: artifact contents by
filename (`CommandContext.read`/`write`) and the accumulated log. -/
structure RunState where
  files : String → String
  log : String

/-- The external world a command run consults: the process environment,
the subprocess spawner (returning exit code, stdout text, stderr text),
`get_disk_path` with `use_temporary = False` (`none` when the artifact is
not on disk) and with the default `use_temporary = True` (always a
path). -/
structure RunOracle where
  env : String → Option String
  spawn : List String → Int × String × String
  diskPath : String → Option String
  diskPathTemp : String → String

/-- `CommandContext.write`. -/
def writeFile (s : RunState) (name content : String) : RunState :=
  { s with files := fun f => if f = name then content else s.files f }

/-- Appending a diagnostic to the log. -/
def appendLog (s : RunState) (t : String) : RunState :=
  { s with log := s.log ++ t }

/-- Where a captured stream is routed in `SubprocessCommand.run`. -/
inductive StreamDest where
  | pipe
  | toFile (p : String)
  | mergedOut
deriving DecidableEq

/-- Routing of stdout: a pipe when not captured or the capture artifact is
not on disk, else directly to the on-disk file. -/
def stdoutDest (o : RunOracle) (cso : Option Artifact) : StreamDest :=
  match cso with
  | none => .pipe
  | some a =>
      match o.diskPath a.filename with
      | none => .pipe
      | some p => .toFile p

/-- Routing of stderr: merged into stdout when the two capture artifacts
are the same object, else as for stdout. -/
def stderrDest (o : RunOracle) (cso cse : Option Artifact) : StreamDest :=
  if cse = cso then .mergedOut
  else
    match cse with
    | none => .pipe
    | some a =>
        match o.diskPath a.filename with
        | none => .pipe
        | some p => .toFile p

/-- After the subprocess returns: piped stdout goes to the log when not
captured, else into the capture artifact; likewise for piped stderr. -/
def applyCaptures (o : RunOracle) (cso cse : Option Artifact)
    (outText errText : String) (s : RunState) : RunState :=
  let s1 :=
    if stdoutDest o cso = .pipe then
      match cso with
      | none => appendLog s outText
      | some a => writeFile s a.filename outText
    else s
  if stderrDest o cso cse = .pipe then
    match cse with
    | none => appendLog s1 errText
    | some a => writeFile s1 a.filename errText
  else s1

mutual

/-- `Command.run` for each variant.  Returns the success flag and the
updated state. -/
def runCmd (o : RunOracle) : Cmd → RunState → Bool × RunState
  | .echo content out, s => (true, writeFile s out.filename content)
  | .envCmd n out dflt _, s =>
      (match o.env n with
       | some v => (true, writeFile s out.filename v)
       | none =>
          match dflt with
          | none =>
              (false, appendLog s ("Environment variable not set: " ++ n ++ "\n"))
          | some (.art a) => (true, writeFile s out.filename (s.files a.filename))
          | some (.str v) => (true, writeFile s out.filename v))
  | .doAll subs, s => runCmdList o subs s
  | .cond c t fc, s =>
      let v := s.files c.filename
      if v = "true" then runCmd o t s
      else if v = "false" then
        match fc with
        | some f => runCmd o f s
        | none => (true, s)
      else
        (false, appendLog s
          ("Condition artifact was not true or false: <Artifact \x27" ++
            c.filename ++ "\x27>\n"))
  | .subprocess _ args _ cso cse ces, s =>
      let fargs := formatArgs s.files o.diskPathTemp args
      let r := o.spawn fargs
      let code := r.1
      let s2 := applyCaptures o cso cse r.2.1 r.2.2 s
      match ces with
      | some a =>
          (true, writeFile s2 a.filename (if code = 0 then "true" else "false"))
      | none =>
          if code = 0 then (true, s2)
          else
            (false, appendLog s2
              ("Command failed with exit code " ++ toString code ++ ": " ++
                String.intercalate " " fargs ++ "\n"))

/-- `DoAllCommand.run`: run each subcommand in order, stopping at the
first failure. -/
def runCmdList (o : RunOracle) : List Cmd → RunState → Bool × RunState
  | [], s => (true, s)
  | c :: rest, s =>
      match runCmd o c s with
      | (true, s1) => runCmdList o rest s1
      | (false, s1) => (false, s1)

end

/-! ## Artifact enumeration (`enumerate_artifacts`) -/

/-- What `_ArtifactEnumeratorImpl` offers a command during enumeration:
`readArt` returns the artifact's contents when it is clean (and `none`
when dirty, the incomplete-enumeration sentinel), `env` is `getenv`. -/
structure EnumOracle where
  readArt : Artifact → Option String
  env : String → Option String

/-- The artifacts mentioned in a subprocess argument list, in first
encounter order (collected by the dummy context's `get_disk_path` and
`read` callbacks). -/
def argArtifactsList : List Arg → List Artifact
  | [] => []
  | .str _ :: rest => argArtifactsList rest
  | .file a :: rest => a :: argArtifactsList rest
  | .content a :: rest => a :: argArtifactsList rest
  | .list l :: rest => argArtifactsList l ++ argArtifactsList rest

/-- Membership test used to classify a collected artifact as an output of
this command's action (Python identity `artifact.action is self.__action`
with a non-`None` action). -/
def isOwnOutput (act : Option Nat) (a : Artifact) : Bool :=
  match act with
  | some i => a.action = some i
  | none => false

mutual

/-- `Command.enumerate_artifacts`, returning the `(inputs, outputs)` the
enumerator collects, in call order.  The Python dummy-context artifact set
of `SubprocessCommand` is modelled as the deduplicated first-occurrence
list of the implicit artifacts followed by those in the argument list. -/
def enumerateCmd (o : EnumOracle) : Cmd → List Artifact × List Artifact
  | .echo _ out => ([], [out])
  | .envCmd n out dflt _ =>
      ((match dflt with
        | some (.art a) => if (o.env n).isNone then [a] else []
        | _ => []),
       [out])
  | .doAll subs => enumerateCmdList o subs
  | .cond c t fc =>
      match o.readArt c with
      | some v =>
          if v = "true" then
            let r := enumerateCmd o t
            (c :: r.1, r.2)
          else
            match fc with
            | some f =>
                if v = "false" then
                  let r := enumerateCmd o f
                  (c :: r.1, r.2)
                else ([c], [])
            | none => ([c], [])
      | none => ([c], [])
  | .subprocess act args implicit cso cse ces =>
      let capOuts :=
        (match cso with | none => [] | some a => [a]) ++
        (match cse with | none => [] | some a => [a]) ++
        (match ces with | none => [] | some a => [a])
      let collected := (implicit ++ argArtifactsList args).dedup
      (collected.filter (fun a => ! isOwnOutput act a),
       capOuts ++ collected.filter (fun a => isOwnOutput act a))

/-- Enumeration of a command list (`DoAllCommand`): concatenation. -/
def enumerateCmdList (o : EnumOracle) : List Cmd → List Artifact × List Artifact
  | [] => ([], [])
  | c :: rest =>
      let r1 := enumerateCmd o c
      let r2 := enumerateCmdList o rest
      (r1.1 ++ r2.1, r1.2 ++ r2.2)

end

/-! ## Artifact state and dirty analysis (`builder.py`) -/

/-- The `(timestamp, is_dirty)` pair `_ArtifactState.__init__` computes. -/
structure ArtifactStateResult where
  timestamp : ℚ
  is_dirty : Bool
deriving DecidableEq, Repr

/-- Everything `_ArtifactState.__init__` consults besides the artifact
itself: the `getmtime` result (`none` when it raises `os.error`), the
`root_dir.exists` answer used to choose the error message, the producing
action's readiness, whether the artifact is among the action's enumerated
outputs, the states of the action's inputs, and the timestamp of the build
definition file (`action.rule.context.timestamp`). -/
structure ArtifactStateCtx where
  mtime : Option ℚ
  fsExists : Bool
  actionReady : Bool
  selfInOutputs : Bool
  inputStates : List ArtifactStateResult
  ruleTimestamp : ℚ

/-- `_ArtifactState.__init__`: a missing derived artifact gets
`timestamp = -1`, dirty; a missing source is a `DefinitionError`; an
existing source is clean; an existing derived artifact is dirty when its
action is not ready, when it is not among the action's outputs, when some
input is dirty or newer than the artifact by more than the one-second
grace, or when the build definition file is newer than the artifact. -/
def mkArtifactState (a : Artifact) (c : ArtifactStateCtx) :
    Except String ArtifactStateResult :=
  match c.mtime with
  | none =>
      match a.action with
      | some _ => .ok ⟨-1, true⟩
      | none =>
          if c.fsExists then
            .error ("The required source file \x27" ++ a.filename ++
              "\x27 does not exist.")
          else
            .error ("The required source file \x27" ++ a.filename ++
              "\x27 is not accessible.")
  | some t =>
      match a.action with
      | none => .ok ⟨t, false⟩
      | some _ =>
          let dirty1 :=
            if c.actionReady then
              if c.selfInOutputs then
                c.inputStates.any fun s =>
                  s.is_dirty || decide (t + 1 < s.timestamp)
              else true
            else true
          .ok ⟨t, dirty1 || decide (t < c.ruleTimestamp)⟩

/-- Result of `_ActionState.update_readiness`: the return value (did
`is_ready` flip to true), the new `is_ready`, the `blocking` action ids,
and the finalized input/output lists (only set once ready). -/
structure ReadinessResult where
  becameReady : Bool
  isReady : Bool
  blocking : List Nat
  inputs : Option (List Artifact)
  outputs : Option (List Artifact)
deriving Repr

/-- The `blocking` collection loop of `update_readiness`: every dirty
input contributes its producing action; a dirty input whose producing
action is ready but does not list the input among its outputs is a
`DefinitionError`; the Python set is modelled as a deduplicated list. -/
def collectBlocking (dirty : Artifact → Bool) (actReady : Nat → Bool)
    (actOuts : Nat → List Artifact) :
    List Artifact → List Nat → Except String (List Nat)
  | [], acc => .ok acc
  | a :: rest, acc =>
      if dirty a then
        match a.action with
        | none => .error "dirty input artifact has no producing action"
        | some aid =>
            if actReady aid ∧ a ∉ actOuts aid then
              .error (a.filename ++ " is needed, but its action did not generate it.")
            else
              collectBlocking dirty actReady actOuts rest
                (if aid ∈ acc then acc else acc ++ [aid])
      else collectBlocking dirty actReady actOuts rest acc

/-- `_ActionState.update_readiness` given the enumeration result
`(ins, outs)` for the action's command, the per-artifact dirtiness and the
other actions' readiness and output lists. -/
def updateReadiness (isReady0 : Bool) (ins outs : List Artifact)
    (dirty : Artifact → Bool) (actReady : Nat → Bool)
    (actOuts : Nat → List Artifact) : Except String ReadinessResult :=
  if isReady0 then .ok ⟨false, true, [], none, none⟩
  else
    match collectBlocking dirty actReady actOuts ins [] with
    | .error e => .error e
    | .ok blocking =>
        if blocking.length > 0 then .ok ⟨false, false, blocking, none, none⟩
        else .ok ⟨true, true, blocking, some ins, some outs⟩

/-! ## Caching runner (`runner.py`) -/

/-- The filesystem facts `CachingRunner` consults: `working_dir.read`,
reading a raw disk input, `os.path.exists` on disk inputs, and
`working_dir.exists` on outputs. -/
structure World where
  readFile : String → String
  diskRead : String → String
  diskExists : String → Bool
  wdExists : String → Bool

/-- `CachingRunner.__hash`: inputs sorted by filename, each tagged `i`
with length-prefixed name and contents; disk inputs sorted, tagged `d`,
read from disk; outputs sorted, tagged `o`, names only; then the
command's own hash. -/
def runnerHash (w : World) (inputNames diskInputNames outputNames : List String)
    (cmd : Cmd) : String :=
  String.join
    ((List.insertionSort (fun x y : String => x ≤ y) inputNames).map fun i =>
      "i" ++ hashStringAndLength i ++ hashStringAndLength (w.readFile i)) ++
  String.join
    ((List.insertionSort (fun x y : String => x ≤ y) diskInputNames).map fun d =>
      "d" ++ hashStringAndLength d ++ hashStringAndLength (w.diskRead d)) ++
  String.join
    ((List.insertionSort (fun x y : String => x ≤ y) outputNames).map fun o =>
      "o" ++ hashStringAndLength o) ++
  cmdHash cmd

/-- `CachingRunner.__can_skip`: no outputs → never skip; the first
output's cached digest must exist and every other output's cached digest
must equal it; every disk input must exist; the freshly recomputed digest
must equal the cached one; finally every output must exist in the working
directory.  Returns the skip decision and the recomputed digest when it
was computed. -/
def canSkip (w : World) (cache : String → Option String) (cmd : Cmd)
    (inputs : List Artifact) (diskInputs : List String)
    (outputs : List Artifact) : Bool × Option String :=
  match outputs with
  | [] => (false, none)
  | o0 :: rest =>
      match cache o0.filename with
      | none => (false, none)
      | some lastHash =>
          if rest.any (fun o => decide (cache o.filename ≠ some lastHash)) then
            (false, none)
          else if diskInputs.any (fun d => ! w.diskExists d) then
            (false, none)
          else
            let newHash :=
              runnerHash w (inputs.map Artifact.filename) diskInputs
                ((o0 :: rest).map Artifact.filename) cmd
            if newHash ≠ lastHash then (false, some newHash)
            else if (o0 :: rest).any (fun o => ! w.wdExists o.filename) then
              (false, some newHash)
            else (true, some newHash)

/-- Python `set(a) != set(b)` on the disk-input lists, as a Bool. -/
def sameSet (l1 l2 : List String) : Bool :=
  l1.all (fun x => x ∈ l2) && l2.all (fun x => x ∈ l1)

/-- What `CachingRunner.run` cannot compute for itself: the world at skip
-test time, the world after the delegated run, the delegated runner's
result, and the disk inputs freshly collected by `_DiskInputCollector`
after the run. -/
structure CachingEnv where
  preWorld : World
  postWorld : World
  subResult : Bool
  newDiskInputs : List String

/-- The digest written into the cache after a successful delegated run:
the skip-test digest is reused when it was computed and the disk-input
set did not change, else the digest is recomputed against the fresh disk
inputs. -/
def cachingHashChoice (env : CachingEnv) (hash0 : Option String) (cmd : Cmd)
    (inputs : List Artifact) (diskInputs : List String)
    (outputs : List Artifact) : String :=
  match hash0 with
  | some h =>
      if sameSet diskInputs env.newDiskInputs then h
      else
        runnerHash env.postWorld (inputs.map Artifact.filename)
          env.newDiskInputs (outputs.map Artifact.filename) cmd
  | none =>
      runnerHash env.postWorld (inputs.map Artifact.filename)
        env.newDiskInputs (outputs.map Artifact.filename) cmd

/-- `CachingRunner.run`: skip (cache untouched) when the skip test
passes; otherwise clear every output's cache entry, delegate, and on
success write the chosen digest for every output.  Returns the action
result and the updated cache. -/
def cachingRunnerRun (env : CachingEnv) (cache : String → Option String)
    (cmd : Cmd) (inputs : List Artifact) (diskInputs : List String)
    (outputs : List Artifact) : Bool × (String → Option String) :=
  let skip := canSkip env.preWorld cache cmd inputs diskInputs outputs
  if skip.1 then (true, cache)
  else
    let cache1 : String → Option String := fun f =>
      if outputs.any (fun o => o.filename = f) then none else cache f
    if env.subResult then
      let h := cachingHashChoice env skip.2 cmd inputs diskInputs outputs
      (true, fun f =>
        if outputs.any (fun o => o.filename = f) then some h else cache1 f)
    else (false, cache1)

/-! ## Test result reporting (`builder.py`, `runner.py`) -/

/-- The per-test indicator `Builder.print_test_results` renders. -/
inductive TestIndicator where
  | PASSED
  | FAILED
deriving DecidableEq, Repr

/-- One test line: `PASSED` exactly when the result artifact's contents
are `"true"`, else `FAILED`. -/
def printTestIndicator (result : String) : TestIndicator :=
  if result = "true" then .PASSED else .FAILED

/-- The test-output artifact's path is appended to the line exactly when
the result contents are `"false"`. -/
def printTestShowsOutput (result : String) : Bool :=
  result = "false"

/-- The `had_failure` accumulation loop of `print_test_results`. -/
def printTestHadFailure : List String → Bool → Bool
  | [], acc => acc
  | r :: rest, acc =>
      printTestHadFailure rest
        (if printTestIndicator r = .PASSED then acc else true)

/-- `Builder.print_test_results` return value: `not had_failure`. -/
def printTestResults (results : List String) : Bool :=
  ! printTestHadFailure results false

/-- The pass/fail marker `SubprocessRunner.run` prepends for a test
action. -/
inductive PassFail where
  | PASS
  | FAIL
deriving DecidableEq, Repr

/-- `SubprocessRunner.run` test check: `PASS` exactly when the test
result artifact reads `"true"`, else `FAIL` — never an error. -/
def runnerPassFail (resultContents : String) : PassFail :=
  if resultContents = "true" then .PASS else .FAIL

/-! ## Environment synthesis (`main.py` `_WorkingDirMapping.__update_env`) -/

/-- Python `str.startswith`, stated via `take` so that it evaluates on
literals. -/
def strStartsWith (s p : String) : Bool :=
  s.take p.length == p

/-- The environment-variable name behind an env-directory path: a path
`set/NAME` refers to variable `NAME`, anything else to itself. -/
def envVarName (filename : String) : String :=
  if strStartsWith filename "set/" then filename.drop 4 else filename

/-- The value `__update_env` computes for the accessed env-directory
file: for `set/NAME` the string `"true"`/`"false"` depending on whether
the variable is set, for `NAME` the variable's value (empty string when
unset). -/
def envFileValue (osEnv : String → Option String) (filename : String) : String :=
  if strStartsWith filename "set/" then
    match osEnv (envVarName filename) with
    | some _ => "true"
    | none => "false"
  else
    match osEnv (envVarName filename) with
    | some v => v
    | none => ""

/-- `_WorkingDirMapping.__update_env`: on access to env-directory file
`filename`, when the variable was not locked by `configure`, write the
freshly computed value into that one file unless it already holds the
same value.  The env `VirtualDirectory` is modelled as a partial map from
paths to contents. -/
def updateEnv (configured : String → Bool) (osEnv : String → Option String)
    (envDir : String → Option String) (filename : String) :
    String → Option String :=
  if configured (envVarName filename) then envDir
  else
    let value := envFileValue osEnv filename
    if envDir filename = some value then envDir
    else fun f => if f = filename then some value else envDir f

/-! ## Concrete sample data used by the witnesses -/

/-- A derived artifact produced by action 1. -/
def artA : Artifact := ⟨"tmp/a.o", some 1⟩

/-- A source artifact. -/
def artB : Artifact := ⟨"src/b.c", none⟩

/-- A test-result style artifact produced by action 3. -/
def statusArt : Artifact := ⟨"tmp/foo/status", some 3⟩

/-- A run state whose files all read as the empty string. -/
def emptyState : RunState := ⟨fun _ => "", ""⟩

/-- A run state whose files all read `"true"`. -/
def allTrueState : RunState := ⟨fun _ => "true", ""⟩

/-- An oracle whose spawned subprocess exits with code 2. -/
def failSpawnOracle : RunOracle :=
  ⟨fun _ => none, fun _ => (2, "out text", "err text"), fun _ => none, fun p => p⟩

/-- A world in which every file exists and reads as the empty string. -/
def emptyWorld : World :=
  ⟨fun _ => "", fun _ => "", fun _ => true, fun _ => true⟩

/-- A caching environment whose delegated runner fails. -/
def failEnv : CachingEnv := ⟨emptyWorld, emptyWorld, false, []⟩

/-- A clean artifact-state context: mtime 5, action ready, artifact among
the outputs, two clean inputs with mtimes 4 and 6, rule timestamp 2. -/
def cleanCtx : ArtifactStateCtx :=
  ⟨some 5, true, true, true, [⟨4, false⟩, ⟨6, false⟩], 2⟩

/-- The context of the C1 counterexample: the artifact has mtime 0 and
its single clean input has mtime 10 (which is `≥ 0 − 1`, yet makes the
artifact dirty). -/
def staleInputCtx : ArtifactStateCtx :=
  ⟨some 0, true, true, true, [⟨10, false⟩], 0⟩

/-- The post-state of `CachingRunner.run` asserted by claim C4: on
delegated success every output maps to the chosen digest; on delegated
failure every output's entry is cleared and no later skip test on these
outputs can succeed, whatever the world, inputs or command look like by
then. -/
def CachingRunPost (env : CachingEnv) (cache : String → Option String)
    (cmd : Cmd) (inputs : List Artifact) (diskIns : List String)
    (outputs : List Artifact) : Prop :=
  (env.subResult = true →
     (cachingRunnerRun env cache cmd inputs diskIns outputs).1 = true ∧
     ∀ o ∈ outputs,
       (cachingRunnerRun env cache cmd inputs diskIns outputs).2 o.filename =
         some (cachingHashChoice env
           (canSkip env.preWorld cache cmd inputs diskIns outputs).2
           cmd inputs diskIns outputs)) ∧
  (env.subResult = false →
     (cachingRunnerRun env cache cmd inputs diskIns outputs).1 = false ∧
     (∀ o ∈ outputs,
       (cachingRunnerRun env cache cmd inputs diskIns outputs).2 o.filename =
         none) ∧
     (∀ (w2 : World) (inputs2 : List Artifact) (diskIns2 : List String)
        (cmd2 : Cmd),
       (canSkip w2 (cachingRunnerRun env cache cmd inputs diskIns outputs).2
          cmd2 inputs2 diskIns2 outputs).1 = false))

/-! ## Claims -/

/-- Claim C10: an `EchoCommand` enumerates exactly one output (its output
artifact) and no inputs; consequently `update_readiness` on a fresh
action whose command is an `EchoCommand` finds an empty blocking set and
marks the action ready at the first evaluation, whatever the dirtiness of
other artifacts and the state of other actions. -/
theorem echoEnumerate_ready (o : EnumOracle) (content : String)
    (out : Artifact) (dirty : Artifact → Bool) (actReady : Nat → Bool)
    (actOuts : Nat → List Artifact) :
    enumerateCmd o (.echo content out) = ([], [out]) ∧
    updateReadiness false (enumerateCmd o (.echo content out)).1
        (enumerateCmd o (.echo content out)).2 dirty actReady actOuts =
      .ok ⟨true, true, [], some [], some [out]⟩ :=
  ⟨rfl, rfl⟩

/-- Claim C8: in `__format_args`, a literal string passes through as one
argument, an artifact becomes its disk path, a top-level `ContentToken`
is whitespace-split into one argument per word, a nested list becomes the
single argument concatenating its elements formatted without splitting,
and inside such a list a `ContentToken` is spliced verbatim. -/
theorem formatArgs_spec (read diskPath : String → String) (s : String)
    (a : Artifact) (l rest : List Arg) :
    formatArgList read diskPath true (Arg.str s :: rest) =
      s :: formatArgList read diskPath true rest ∧
    formatArgList read diskPath true (Arg.file a :: rest) =
      diskPath a.filename :: formatArgList read diskPath true rest ∧
    formatArgList read diskPath true (Arg.content a :: rest) =
      pySplit (read a.filename) ++ formatArgList read diskPath true rest ∧
    formatArgList read diskPath true (Arg.list l :: rest) =
      String.join (formatArgList read diskPath false l) ::
        formatArgList read diskPath true rest ∧
    formatArgList read diskPath false (Arg.content a :: rest) =
      read a.filename :: formatArgList read diskPath false rest := by
  refine ⟨?_, ?_, ?_, ?_, ?_⟩ <;> simp [formatArgList, formatArgOne]

/-- Helper for claim C2: the `had_failure` loop of `print_test_results`
accumulates exactly "some result is not the string true". -/
theorem printTestHadFailure_eq (rs : List String) (acc : Bool) :
    printTestHadFailure rs acc =
      (acc || rs.any fun r => ! decide (r = "true")) := by
  induction rs generalizing acc with
  | nil => simp [printTestHadFailure]
  | cons r rest ih =>
      by_cases h : r = "true"
      · simp [printTestHadFailure, printTestIndicator, h, ih]
      · simp [printTestHadFailure, printTestIndicator, h, ih]

/-- Claim C2, counterexample to the claim as stated: a test-result
artifact reading `banana` (neither `true` nor `false`) does not produce a
`DefinitionError` anywhere — `print_test_results` renders `FAILED`
(without the test-output line, which only `false` gets), the runner
renders `FAIL`, and the build merely reports failure. -/
theorem testResult_strict_cex :
    printTestIndicator "banana" = .FAILED ∧
    runnerPassFail "banana" = .FAIL ∧
    printTestResults ["banana"] = false ∧
    printTestShowsOutput "banana" = false := by
  decide

/-- Claim C2, amended: a test-result artifact passes exactly when its
contents are the string `true`; any other contents (including garbage)
are treated as a plain test failure in both `print_test_results` and the
runner, with the test-output path printed only for the exact string
`false`, and no definition error is raised. -/
theorem testResult_lenient (r : String) (rs : List String) :
    printTestIndicator r = (if r = "true" then .PASSED else .FAILED) ∧
    runnerPassFail r = (if r = "true" then .PASS else .FAIL) ∧
    printTestShowsOutput r = decide (r = "false") ∧
    printTestResults rs = rs.all fun x => decide (x = "true") := by
  refine ⟨rfl, rfl, by simp [printTestShowsOutput], ?_⟩
  simp only [printTestResults, printTestHadFailure_eq, Bool.false_or]
  induction rs with
  | nil => simp
  | cons r rest ih => simp [ih]

/-- Claim C9, counterexample to the claim as stated: accessing `env/HOME`
(variable set to `/root`, not locked) writes only the file `HOME` into
the env directory; the companion `set/HOME` file is not written. -/
theorem updateEnv_both_files_cex :
    updateEnv (fun _ => false)
      (fun n => if n = "HOME" then some "/root" else none)
      (fun _ => none) "HOME" "HOME" = some "/root" ∧
    updateEnv (fun _ => false)
      (fun n => if n = "HOME" then some "/root" else none)
      (fun _ => none) "HOME" "set/HOME" = none := by
  constructor <;> rfl

/-- Claim C9, amended: each access to an env-directory path updates only
the accessed file.  For an unlocked variable, accessing `NAME` writes the
variable's value (empty string when unset) into `NAME` and accessing
`set/NAME` writes `true`/`false` into `set/NAME`; the file is rewritten
only when the value changed, and a locked variable is never updated. -/
theorem updateEnv_spec (configured : String → Bool)
    (osEnv : String → Option String) (envDir : String → Option String)
    (filename : String) :
    (configured (envVarName filename) = false →
       ∀ f, updateEnv configured osEnv envDir filename f =
         if f = filename then some (envFileValue osEnv filename)
         else envDir f) ∧
    (configured (envVarName filename) = true →
       updateEnv configured osEnv envDir filename = envDir) ∧
    (configured (envVarName filename) = false →
       envDir filename = some (envFileValue osEnv filename) →
       updateEnv configured osEnv envDir filename = envDir) := by
  refine ⟨?_, ?_, ?_⟩
  · intro h f
    by_cases he : envDir filename = some (envFileValue osEnv filename)
    · by_cases hf : f = filename
      · subst hf
        simp [updateEnv, h, he]
      · simp [updateEnv, h, he, hf]
    · simp [updateEnv, h, he]
  · intro h
    simp [updateEnv, h]
  · intro h he
    simp [updateEnv, h, he]

/-- Claim C9 witness: the amended statement applied to an unlocked set
variable access, a locked variable, and an unchanged value. -/
theorem updateEnv_spec_witness :
    (updateEnv (fun _ => false) (fun _ => some "/usr") (fun _ => none)
        "PATH" "PATH" =
      if "PATH" = "PATH" then
        some (envFileValue (fun _ => some "/usr") "PATH")
      else none) ∧
    (updateEnv (fun _ => true) (fun _ => none) (fun _ => none) "HOME" =
      fun _ => none) ∧
    (updateEnv (fun _ => false) (fun _ => none) (fun _ => some "") "X" =
      fun _ => some "") :=
  ⟨(updateEnv_spec (fun _ => false) (fun _ => some "/usr") (fun _ => none)
      "PATH").1 rfl "PATH",
   (updateEnv_spec (fun _ => true) (fun _ => none) (fun _ => none)
      "HOME").2.1 rfl,
   (updateEnv_spec (fun _ => false) (fun _ => none) (fun _ => some "")
      "X").2.2 rfl rfl⟩

/-- Claim C1, counterexample to the claim as stated: the artifact has
mtime 0 and its producing action's single input is present, clean, with
mtime 10 ≥ 0 − 1; yet the constructed state is dirty, because the code
dirties on `A.timestamp + 1 < input.timestamp`. -/
theorem artifactState_grace_cex :
    ((10 : ℚ) ≥ 0 - 1) ∧
    mkArtifactState ⟨"tmp/out", some 5⟩ staleInputCtx = .ok ⟨0, true⟩ := by
  constructor
  · norm_num
  · simp [mkArtifactState, staleInputCtx]

/-- Claim C1, amended: for an artifact that exists, whose producing
action is ready with the artifact among its outputs, and whose mtime is
at least the build-definition timestamp, the state is dirty exactly when
some input is dirty or newer than the artifact by more than the 1-second
grace (`A.timestamp + 1 < input.timestamp`); in particular it is clean
when every input is clean with mtime ≤ `A.mtime + 1`. -/
theorem artifactState_dirty_iff (a : Artifact) (c : ArtifactStateCtx)
    (t : ℚ) (i : Nat) (hm : c.mtime = some t) (ha : a.action = some i)
    (hr : c.actionReady = true) (ho : c.selfInOutputs = true)
    (hrt : c.ruleTimestamp ≤ t) :
    mkArtifactState a c =
      .ok ⟨t, c.inputStates.any fun s =>
        s.is_dirty || decide (t + 1 < s.timestamp)⟩ := by
  have hlt : ¬ (t < c.ruleTimestamp) := not_lt.mpr hrt
  simp [mkArtifactState, hm, ha, hr, ho, hlt]

/-- Claim C1 witness: a concrete clean situation — mtime 5, clean inputs
with mtimes 4 and 6, rule timestamp 2 — is reported clean. -/
theorem artifactState_dirty_iff_witness :
    mkArtifactState artA cleanCtx = .ok ⟨5, false⟩ := by
  have h := artifactState_dirty_iff artA cleanCtx 5 1 rfl rfl rfl rfl
    (by norm_num [cleanCtx])
  rw [h]
  norm_num [cleanCtx]

/-- Helper for claim C5: insertion sort is invariant under permutation of
its input. -/
theorem insertionSort_congr_perm (l1 l2 : List String) (h : l1.Perm l2) :
    List.insertionSort (fun x y : String => x ≤ y) l1 =
      List.insertionSort (fun x y : String => x ≤ y) l2 :=
  List.eq_of_perm_of_sorted
    (((List.perm_insertionSort _ _).trans h).trans
      (List.perm_insertionSort _ _).symm)
    (List.sorted_insertionSort _ _) (List.sorted_insertionSort _ _)

/-- Claim C5: `SubprocessCommand.hash` feeds the hasher the same byte
sequence for two commands that differ only in the order of their implicit
-artifact collection — the `+`/`-`-prefixed, length-prefixed names are
sorted before hashing, so set-iteration order cannot change the
digest. -/
theorem subprocessHash_perm (act : Option Nat) (args : List Arg)
    (cso cse ces : Option Artifact) (imp1 imp2 : List Artifact)
    (h : imp1.Perm imp2) :
    cmdHash (.subprocess act args imp1 cso cse ces) =
      cmdHash (.subprocess act args imp2 cso cse ces) := by
  have hp : (implicitNames act imp1).Perm (implicitNames act imp2) := by
    unfold implicitNames
    exact h.map _
  have hs : implicitHash act imp1 = implicitHash act imp2 := by
    unfold implicitHash
    rw [insertionSort_congr_perm _ _ hp]
  simp [cmdHash, hs]

/-- Claim C5 witness: two concrete implicit lists in swapped order hash
identically. -/
theorem subprocessHash_perm_witness :
    ([artA, artB].Perm [artB, artA]) ∧
    cmdHash (.subprocess (some 1) [] [artA, artB] none none none) =
      cmdHash (.subprocess (some 1) [] [artB, artA] none none none) :=
  ⟨by decide,
   subprocessHash_perm (some 1) [] none none none [artA, artB] [artB, artA]
     (by decide)⟩

/-- Claim C6: `ConditionalCommand.run` reads the condition artifact and
dispatches — contents `true` run the true command, contents `false` run
the false command when given and trivially succeed otherwise, and any
other contents fail after logging a diagnostic. -/
theorem conditionalRun_spec (o : RunOracle) (s : RunState) (c : Artifact)
    (t : Cmd) (fc : Option Cmd) :
    (s.files c.filename = "true" →
       runCmd o (.cond c t fc) s = runCmd o t s) ∧
    (∀ f, fc = some f → s.files c.filename = "false" →
       runCmd o (.cond c t fc) s = runCmd o f s) ∧
    (fc = none → s.files c.filename = "false" →
       runCmd o (.cond c t fc) s = (true, s)) ∧
    (s.files c.filename ≠ "true" → s.files c.filename ≠ "false" →
       runCmd o (.cond c t fc) s =
         (false, appendLog s
           ("Condition artifact was not true or false: <Artifact \x27" ++
             c.filename ++ "\x27>\n"))) := by
  refine ⟨?_, ?_, ?_, ?_⟩
  · intro h
    cases fc <;> simp [runCmd, h]
  · intro f hf h
    subst hf
    simp [runCmd, h]
  · intro hf h
    subst hf
    simp [runCmd, h]
  · intro h1 h2
    cases fc <;> simp [runCmd, h1, h2]

/-- Claim C6 witness: with the condition artifact reading `"true"`, the
conditional behaves as its true command. -/
theorem conditionalRun_spec_witness :
    runCmd failSpawnOracle (.cond artB (.echo "x" artA) none) allTrueState =
      runCmd failSpawnOracle (.echo "x" artA) allTrueState :=
  (conditionalRun_spec failSpawnOracle allTrueState artB (.echo "x" artA)
    none).1 rfl

/-- Claim C7: `SubprocessCommand.run` with `capture_exit_status` set
returns success whatever the exit code and writes `"true"`/`"false"` to
the capture artifact according to whether the exit code is 0; without it,
exit code 0 returns success with the post-capture state unchanged, and a
non-zero exit code returns failure after logging the exit code and the
formatted command line. -/
theorem subprocessRun_exit_spec (o : RunOracle) (s : RunState)
    (act : Option Nat) (args : List Arg) (imp : List Artifact)
    (cso cse : Option Artifact) (a : Artifact) :
    ((runCmd o (.subprocess act args imp cso cse (some a)) s).1 = true) ∧
    ((runCmd o (.subprocess act args imp cso cse (some a)) s).2.files
        a.filename =
      if (o.spawn (formatArgs s.files o.diskPathTemp args)).1 = 0 then "true"
      else "false") ∧
    ((runCmd o (.subprocess act args imp cso cse none) s).1 =
      decide ((o.spawn (formatArgs s.files o.diskPathTemp args)).1 = 0)) ∧
    ((o.spawn (formatArgs s.files o.diskPathTemp args)).1 = 0 →
      (runCmd o (.subprocess act args imp cso cse none) s).2 =
        applyCaptures o cso cse
          (o.spawn (formatArgs s.files o.diskPathTemp args)).2.1
          (o.spawn (formatArgs s.files o.diskPathTemp args)).2.2 s) ∧
    ((o.spawn (formatArgs s.files o.diskPathTemp args)).1 ≠ 0 →
      (runCmd o (.subprocess act args imp cso cse none) s).2 =
        appendLog
          (applyCaptures o cso cse
            (o.spawn (formatArgs s.files o.diskPathTemp args)).2.1
            (o.spawn (formatArgs s.files o.diskPathTemp args)).2.2 s)
          ("Command failed with exit code " ++
            toString (o.spawn (formatArgs s.files o.diskPathTemp args)).1 ++
            ": " ++
            String.intercalate " "
              (formatArgs s.files o.diskPathTemp args) ++ "\n")) := by
  refine ⟨?_, ?_, ?_, ?_, ?_⟩
  · simp [runCmd]
  · simp [runCmd, writeFile]
  · by_cases hc : (o.spawn (formatArgs s.files o.diskPathTemp args)).1 = 0
    · simp [runCmd, hc]
    · simp [runCmd, hc]
  · intro hc
    simp [runCmd, hc]
  · intro hc
    simp [runCmd, hc]

/-- Claim C7 witness: with a spawner exiting with code 2, the capture
variant succeeds and records `"false"`, while the plain variant fails and
logs the command line and exit code. -/
theorem subprocessRun_exit_witness :
    ((runCmd failSpawnOracle
        (.subprocess none [] [] none none (some statusArt)) emptyState).1 =
      true) ∧
    ((runCmd failSpawnOracle
        (.subprocess none [] [] none none (some statusArt)) emptyState).2.files
        statusArt.filename = "false") ∧
    ((runCmd failSpawnOracle
        (.subprocess none [] [] none none none) emptyState).1 = false) ∧
    ((runCmd failSpawnOracle
        (.subprocess none [] [] none none none) emptyState).2 =
      appendLog
        (applyCaptures failSpawnOracle none none
          (failSpawnOracle.spawn
            (formatArgs emptyState.files failSpawnOracle.diskPathTemp [])).2.1
          (failSpawnOracle.spawn
            (formatArgs emptyState.files failSpawnOracle.diskPathTemp [])).2.2
          emptyState)
        ("Command failed with exit code " ++
          toString
            (failSpawnOracle.spawn
              (formatArgs emptyState.files failSpawnOracle.diskPathTemp [])).1
          ++ ": " ++
          String.intercalate " "
            (formatArgs emptyState.files failSpawnOracle.diskPathTemp []) ++
          "\n")) := by
  have h := subprocessRun_exit_spec failSpawnOracle emptyState none [] [] none
    none statusArt
  refine ⟨h.1, ?_, ?_, h.2.2.2.2 (by decide)⟩
  · have h2 := h.2.1
    simpa [failSpawnOracle, emptyState, formatArgs, formatArgList] using h2
  · have h3 := h.2.2.1
    simpa [failSpawnOracle, emptyState, formatArgs, formatArgList] using h3

/-- Claim C3: `CachingRunner.__can_skip` skips exactly when the action
has at least one output, every output carries the same cached digest,
every disk input exists, the freshly recomputed digest equals the cached
one, and every output exists in the working directory; in particular an
action with no outputs is never skipped. -/
theorem canSkip_iff (w : World) (cache : String → Option String) (cmd : Cmd)
    (inputs : List Artifact) (diskIns : List String)
    (outputs : List Artifact) :
    (canSkip w cache cmd inputs diskIns outputs).1 = true ↔
      (outputs ≠ [] ∧
       ∃ H, (∀ o ∈ outputs, cache o.filename = some H) ∧
         (∀ d ∈ diskIns, w.diskExists d = true) ∧
         runnerHash w (inputs.map Artifact.filename) diskIns
           (outputs.map Artifact.filename) cmd = H ∧
         (∀ o ∈ outputs, w.wdExists o.filename = true)) := by
  cases outputs with
  | nil => simp [canSkip]
  | cons o0 rest =>
      cases hc : cache o0.filename with
      | none =>
          simp only [canSkip, hc]
          constructor
          · intro h
            simp at h
          · rintro ⟨-, H, hall, -⟩
            have h0 := hall o0 (by simp)
            rw [hc] at h0
            cases h0
      | some lastHash =>
          simp only [canSkip, hc]
          by_cases h1 :
              rest.any (fun o => decide (cache o.filename ≠ some lastHash)) =
                true
          · rw [if_pos h1]
            constructor
            · intro h
              simp at h
            · rintro ⟨-, H, hall, -, -, -⟩
              have h0 := hall o0 (by simp)
              rw [hc] at h0
              injection h0 with h0
              obtain ⟨o, ho, hne⟩ := List.any_eq_true.mp h1
              have hne' := of_decide_eq_true hne
              have hco := hall o (List.mem_cons_of_mem _ ho)
              rw [h0] at hne'
              exact (hne' hco).elim
          · rw [if_neg h1]
            have h1' : ∀ o ∈ rest, cache o.filename = some lastHash := by
              intro o ho
              by_contra hne
              exact h1 (List.any_eq_true.mpr ⟨o, ho, by simp [hne]⟩)
            by_cases h2 : diskIns.any (fun d => ! w.diskExists d) = true
            · rw [if_pos h2]
              constructor
              · intro h
                simp at h
              · rintro ⟨-, H, -, hdisk, -, -⟩
                obtain ⟨d, hd, hda⟩ := List.any_eq_true.mp h2
                rw [Bool.not_eq_true'] at hda
                rw [hdisk d hd] at hda
                cases hda
            · rw [if_neg h2]
              have h2' : ∀ d ∈ diskIns, w.diskExists d = true := by
                intro d hd
                by_contra hne
                exact h2 (List.any_eq_true.mpr ⟨d, hd, by simp [hne]⟩)
              by_cases h3 :
                  runnerHash w (inputs.map Artifact.filename) diskIns
                    ((o0 :: rest).map Artifact.filename) cmd = lastHash
              · rw [if_neg (not_not_intro h3)]
                by_cases h4 :
                    (o0 :: rest).any (fun o => ! w.wdExists o.filename) = true
                · rw [if_pos h4]
                  constructor
                  · intro h
                    simp at h
                  · rintro ⟨-, H, -, -, -, hwd⟩
                    obtain ⟨o, ho, hoa⟩ := List.any_eq_true.mp h4
                    rw [Bool.not_eq_true'] at hoa
                    rw [hwd o ho] at hoa
                    cases hoa
                · rw [if_neg h4]
                  constructor
                  · intro _
                    refine ⟨by simp, lastHash, ?_, h2', h3, ?_⟩
                    · intro o ho
                      rcases List.mem_cons.mp ho with h | h
                      · rw [h]
                        exact hc
                      · exact h1' o h
                    · intro o ho
                      by_contra hne
                      exact h4 (List.any_eq_true.mpr ⟨o, ho, by simp [hne]⟩)
                  · intro _
                    rfl
              · rw [if_pos h3]
                constructor
                · intro h
                  simp at h
                · rintro ⟨-, H, hall, -, hhash, -⟩
                  have h0 := hall o0 (by simp)
                  rw [hc] at h0
                  injection h0 with h0
                  exact (h3 (hhash.trans h0.symm)).elim

/-- Claim C4: when `CachingRunner.run` actually delegates (the skip test
failed), a successful delegated run maps every output filename in the
cache to the chosen recomputed digest, while a failed one clears every
output's cache entry, so that no later skip test on those outputs can
succeed — prior failures are never skipped. -/
theorem cachingRunnerRun_cache_update (env : CachingEnv)
    (cache : String → Option String) (cmd : Cmd) (inputs : List Artifact)
    (diskIns : List String) (outputs : List Artifact)
    (h : (canSkip env.preWorld cache cmd inputs diskIns outputs).1 = false) :
    CachingRunPost env cache cmd inputs diskIns outputs := by
  constructor
  · intro hs
    have hrun : cachingRunnerRun env cache cmd inputs diskIns outputs =
        (true, fun f =>
          if outputs.any (fun x => x.filename = f) then
            some (cachingHashChoice env
              (canSkip env.preWorld cache cmd inputs diskIns outputs).2
              cmd inputs diskIns outputs)
          else if outputs.any (fun x => x.filename = f) then none
          else cache f) := by
      simp [cachingRunnerRun, h, hs]
    constructor
    · rw [hrun]
    · intro o ho
      have hmem : (outputs.any fun x => decide (x.filename = o.filename)) =
          true :=
        List.any_eq_true.mpr ⟨o, ho, by simp⟩
      rw [hrun]
      exact if_pos hmem
  · intro hs
    have hrun : cachingRunnerRun env cache cmd inputs diskIns outputs =
        (false, fun f =>
          if outputs.any (fun x => x.filename = f) then none
          else cache f) := by
      simp [cachingRunnerRun, h, hs]
    refine ⟨?_, ?_, ?_⟩
    · rw [hrun]
    · intro o ho
      have hmem : (outputs.any fun x => decide (x.filename = o.filename)) =
          true :=
        List.any_eq_true.mpr ⟨o, ho, by simp⟩
      rw [hrun]
      exact if_pos hmem
    · intro w2 inputs2 diskIns2 cmd2
      rw [hrun]
      cases outputs with
      | nil => simp [canSkip]
      | cons o0 rest =>
          have hmem :
              ((o0 :: rest).any fun x => decide (x.filename = o0.filename)) =
                true :=
            List.any_eq_true.mpr ⟨o0, by simp, by simp⟩
          have hnone :
              (fun f =>
                if (o0 :: rest).any (fun x => x.filename = f) then none
                else cache f) o0.filename = (none : Option String) :=
            if_pos hmem
          simp [canSkip, hnone]

/-- Claim C4 witness: a concrete non-skippable action (empty cache) whose
delegated run fails ends with its output uncached and unskippable. -/
theorem cachingRunnerRun_cache_update_witness :
    CachingRunPost failEnv (fun _ => none) (.doAll []) [] [] [artA] :=
  cachingRunnerRun_cache_update failEnv (fun _ => none) (.doAll []) [] []
    [artA] rfl
